import Mathlib

/-!
Verification of the criteria-matching engine of pgn-extract (src/src/lists.c).

The development shallowly embeds the evaluation surface of `lists.c`:
the soundex phonetic encoder, the generic pattern matcher `check_list`,
the specialised matchers `check_date`, `check_elo`, `check_time_period`,
`check_time_control`, and the record-level aggregators
`check_tag_details_not_ECO` and `check_ECO_tag`.

C strings become `String`/`List Char`; the C `double` comparisons become
exact comparisons over `Rat` (every value compared in the claims is an
integer or short decimal, represented exactly by both `double` and `Rat`);
`exit(1)` becomes the `none` case of an `Option Bool` result; the POSIX
regex facility (an external library, not part of this repository) is an
abstract oracle parameter `rm : String → String → Bool` standing for
"the pattern compiles and `regexec` reports a match".
-/

/-- The `TagOperator` attached to each stored criterion. -/
inductive TagOperator where
  | NONE
  | LESS_THAN
  | LESS_THAN_OR_EQUAL_TO
  | GREATER_THAN
  | GREATER_THAN_OR_EQUAL_TO
  | EQUAL_TO
  | NOT_EQUAL_TO
  | REGEX
deriving DecidableEq

/-- One stored criterion: a pattern string plus its operator
(struct `tag_selection` in lists.c). -/
structure TagSelection where
  tag_string : String
  operator : TagOperator
deriving DecidableEq

/-- The relevant parts of the C `GlobalState`. -/
structure GlobalConfig where
  use_soundex : Bool
  tag_match_anywhere : Bool
  check_tags : Bool
deriving DecidableEq

/-- The registry of criterion lists (`TagLists` plus `tag_list_length`)
bundled with the global flags. `tagLists` maps a tag code to its ordered
criterion list; codes at or beyond `tag_list_length` are unused. -/
structure EngineState where
  cfg : GlobalConfig
  tagLists : Nat → List TagSelection
  tag_list_length : Nat

/-- Modelled from the spec: the tag codes used by lists.c come from
taglist.h, which is not part of the given sources.  The spec (§3) only
requires a fixed initial code space containing the named fields; for the
claims below nothing depends on the concrete numbers, only on the codes
being distinct members of the initial space, so we fix an arbitrary
injective assignment. -/
def WHITE_TAG : Nat := 0

/-- Modelled from the spec: tag code for the black player field. -/
def BLACK_TAG : Nat := 1

/-- Modelled from the spec: tag code for the white rating field. -/
def WHITE_ELO_TAG : Nat := 2

/-- Modelled from the spec: tag code for the black rating field. -/
def BLACK_ELO_TAG : Nat := 3

/-- Modelled from the spec: tag code for the date field. -/
def DATE_TAG : Nat := 4

/-- Modelled from the spec: tag code for the opening-code (ECO) field. -/
def ECO_TAG : Nat := 5

/-- Modelled from the spec: tag code for the time-control field. -/
def TIME_CONTROL_TAG : Nat := 6

/-- Modelled from the spec: the synthetic either-player tag code. -/
def PSEUDO_PLAYER_TAG : Nat := 7

/-- Modelled from the spec: the synthetic either-rating tag code. -/
def PSEUDO_ELO_TAG : Nat := 8

/-- Modelled from the spec: tag code for the event field. -/
def EVENT_TAG : Nat := 9

/-- Modelled from the spec: tag code for the site field. -/
def SITE_TAG : Nat := 10

/-- Modelled from the spec: tag code for the annotator field. -/
def ANNOTATOR_TAG : Nat := 11

/-- Modelled from the spec: size of the initial tag-code space. -/
def ORIGINAL_NUMBER_OF_TAGS : Nat := 16

/- ---------------------------------------------------------------
   The soundex phonetic encoder (lists.c, `soundex`).
   --------------------------------------------------------------- -/

/-- The fixed A..Z letter-to-digit table of `soundex`. -/
def soundexMapping : List Char := "01230120002455012622011202".data

/-- Maximum length of a soundex code (`MAXSOUNDEX`). -/
def MAXSOUNDEX : Nat := 50

/-- The per-letter translation of `soundex`: uppercase the letter and
look it up in the A..Z table. -/
def soundexTranslation (c : Char) : Char :=
  let ch := if c.isLower then c.toUpper else c
  soundexMapping.getD (ch.toNat - 65) '0'

/-- The scanning loop of `soundex`: `lastc` is the previously emitted
translation (initially a blank) and `sindex` the number of symbols
already emitted. -/
def soundexAux : List Char → Char → Nat → List Char
  | [], _, _ => []
  | c :: rest, lastc, sindex =>
    if MAXSOUNDEX ≤ sindex then []
    else if c.isAlpha && c != lastc then
      if soundexTranslation c != '0' && soundexTranslation c != lastc then
        soundexTranslation c :: soundexAux rest (soundexTranslation c) (sindex + 1)
      else
        soundexAux rest lastc sindex
    else
      soundexAux rest lastc sindex

/-- The soundex encoder of lists.c: special-cases an initial 'J'/'Y'
(either case) by emitting '7' and advancing, then runs the scan. -/
def soundex (s : String) : String :=
  match s.data with
  | [] => String.mk (soundexAux [] ' ' 0)
  | c :: rest =>
    let initial := if c.isLower then c.toUpper else c
    if initial = 'Y' ∨ initial = 'J' then
      String.mk ('7' :: soundexAux rest ' ' 1)
    else
      String.mk (soundexAux (c :: rest) ' ' 0)

/-- Function `soundex_tag` of lists.c: the tags subject to phonetic matching. -/
def soundex_tag (tag : Nat) : Bool :=
  tag = WHITE_TAG || tag = BLACK_TAG || tag = PSEUDO_PLAYER_TAG ||
  tag = EVENT_TAG || tag = SITE_TAG || tag = ANNOTATOR_TAG

/- ---------------------------------------------------------------
   Scalar parsing and the relational comparator.
   --------------------------------------------------------------- -/

/-- Value of a list of decimal digit characters. -/
def digitsToNat (ds : List Char) : Nat :=
  ds.foldl (fun a c => 10 * a + (c.toNat - 48)) 0

/-- Whitespace skipped by `sscanf` conversions. -/
def isScanSpace (c : Char) : Bool :=
  c == ' ' || c == '\t' || c == '\n' || c == '\r'

/-- The `sscanf("%u")` conversion: skip whitespace, allow a '+' sign,
then read a non-empty digit run; returns the value and the remaining
characters.  (strtoul's wrap-around acceptance of '-' is outside the
inputs exercised here and is modelled as a failure.) -/
def scanUnsigned (cs : List Char) : Option (Nat × List Char) :=
  let cs1 := cs.dropWhile isScanSpace
  let cs2 := match cs1 with
    | '+' :: r => r
    | _ => cs1
  let ds := cs2.takeWhile Char.isDigit
  if ds.isEmpty then none
  else some (digitsToNat ds, cs2.dropWhile Char.isDigit)

/-- The `sscanf("%lf")` conversion restricted to the plain decimal forms
`[sign]digits[.digits]` that arise in this module (exponent notation is
never exercised by the tag values or patterns under test).  The exact
value is kept as a rational. -/
def scanDouble (cs : List Char) : Option Rat :=
  let cs1 := cs.dropWhile isScanSpace
  let signed : Rat × List Char := match cs1 with
    | '+' :: r => (1, r)
    | '-' :: r => (-1, r)
    | _ => (1, cs1)
  let intDs := signed.2.takeWhile Char.isDigit
  let rest := signed.2.dropWhile Char.isDigit
  let fracDs := match rest with
    | '.' :: r => r.takeWhile Char.isDigit
    | _ => []
  if intDs.isEmpty && fracDs.isEmpty then none
  else some (signed.1 *
    ((digitsToNat intDs : Rat) + (digitsToNat fracDs : Rat) / ((10 : Rat) ^ fracDs.length)))

/-- Function `relative_numeric_match` of lists.c: whether `lhs operator rhs` holds.
The C version compares `double`s; every value reaching it here is exactly
representable, so `Rat` comparison is faithful.  `NONE` and the untreated
`REGEX` (the `default:` arm) log an internal error and yield false. -/
def relative_numeric_match (operator : TagOperator) (lhs rhs : Rat) : Bool :=
  match operator with
  | .LESS_THAN => decide (lhs < rhs)
  | .LESS_THAN_OR_EQUAL_TO => decide (lhs ≤ rhs)
  | .GREATER_THAN => decide (rhs < lhs)
  | .GREATER_THAN_OR_EQUAL_TO => decide (rhs ≤ lhs)
  | .EQUAL_TO => decide (lhs = rhs)
  | .NOT_EQUAL_TO => decide (lhs ≠ rhs)
  | .NONE => false
  | .REGEX => false

/- ---------------------------------------------------------------
   String primitives used by the matchers (strncmp-prefix, strstr).
   --------------------------------------------------------------- -/

/-- Test `strncmp(hay, pat, strlen(pat)) == 0`: `pat` is a prefix of `hay`. -/
def isPrefixCL : List Char → List Char → Bool
  | [], _ => true
  | _ :: _, [] => false
  | p :: ps, c :: cs => p == c && isPrefixCL ps cs

/-- Test `strstr(hay, pat) != NULL`: `pat` occurs somewhere in `hay`. -/
def containsCL (pat : List Char) : List Char → Bool
  | [] => isPrefixCL pat []
  | c :: rest => isPrefixCL pat (c :: rest) || containsCL pat rest

/- ---------------------------------------------------------------
   The generic pattern matcher `check_list`.
   --------------------------------------------------------------- -/

/-- The numeric-literal classifier inlined in `check_list`
(`tag_string_is_numeric`): skip one leading '+' or '-', scan digits
and '.' characters, and require end of string. -/
def tag_string_is_numeric (s : String) : Bool :=
  let t := match s.data with
    | c :: rest => if c = '+' ∨ c = '-' then rest else c :: rest
    | [] => []
  (t.dropWhile (fun c => c.isDigit || c == '.')).isEmpty

/-- The plain text test of one criterion pattern against the search
string: substring containment in anywhere mode, prefix equality
otherwise. -/
def plainHit (cfg : GlobalConfig) (searchData patData : List Char) : Bool :=
  if cfg.tag_match_anywhere then containsCL patData searchData
  else isPrefixCL patData searchData

/-- The first loop of `check_list`: runs while no match has been found,
testing each pattern with the plain text test and recording whether a
later relational pass (`possible_range_check`) or regex pass
(`possible_regex_check`) should be attempted. -/
def plainLoop (cfg : GlobalConfig) (isNum : Bool) (searchData : List Char) :
    List TagSelection → Bool → Bool → Bool → Bool × Bool × Bool
  | [], wanted, pr, px => (wanted, pr, px)
  | sel :: rest, wanted, pr, px =>
    if wanted then (wanted, pr, px)
    else
      let wanted := plainHit cfg searchData sel.tag_string.data
      let pr := if !wanted && decide (sel.operator ≠ TagOperator.NONE) && isNum then true else pr
      let px := if !wanted && decide (sel.operator = TagOperator.REGEX) then true else px
      plainLoop cfg isNum searchData rest wanted pr px

/-- The relational (AND) pass of `check_list`: runs while the running
result is still true; a criterion with one of the six relational
operators contributes its comparison when both sides scan as doubles,
`NONE` contributes nothing, and any other operator falls to the
`default:` arm, which logs an internal error and leaves the running
result unchanged. -/
def rangeLoop (searchData : List Char) : List TagSelection → Bool → Bool
  | [], wanted => wanted
  | sel :: rest, wanted =>
    if !wanted then wanted
    else
      let wanted :=
        match sel.operator with
        | .EQUAL_TO | .NOT_EQUAL_TO | .LESS_THAN | .GREATER_THAN
        | .LESS_THAN_OR_EQUAL_TO | .GREATER_THAN_OR_EQUAL_TO =>
          match scanDouble searchData, scanDouble sel.tag_string.data with
          | some tagValue, some listValue => relative_numeric_match sel.operator tagValue listValue
          | _, _ => wanted
        | .NONE => wanted
        | .REGEX => wanted
      rangeLoop searchData rest wanted

/-- The regex (OR) pass of `check_list`; `rm pat s` abstracts
"`regcomp(pat)` succeeds and `regexec` matches `s`". -/
def regexLoop (rm : String → String → Bool) (searchStr : String) :
    List TagSelection → Bool → Bool
  | [], wanted => wanted
  | sel :: rest, wanted =>
    if wanted then wanted
    else
      let wanted := if sel.operator = TagOperator.REGEX then
          (if rm sel.tag_string searchStr then true else wanted)
        else wanted
      regexLoop rm searchStr rest wanted

/-- The search string `check_list` works on: the soundex code of the
candidate for a phonetic tag when soundex matching is configured, the
raw candidate otherwise. -/
def searchStringFor (cfg : GlobalConfig) (tag : Nat) (tagString : String) : String :=
  if cfg.use_soundex && soundex_tag tag then soundex tagString else tagString

/-- Function `check_list` of lists.c: soundex-normalise the candidate when
configured, classify it as numeric-literal-shaped or not, run the plain
pass, then (when nothing matched) the relational pass if flagged, then
the regex pass if flagged. -/
def check_list (cfg : GlobalConfig) (rm : String → String → Bool)
    (tag : Nat) (tagString : String) (list : List TagSelection) : Bool :=
  let searchStr := searchStringFor cfg tag tagString
  let isNum := tag_string_is_numeric searchStr
  let res := plainLoop cfg isNum searchStr.data list false false false
  if !res.1 then
    let wanted := if res.2.1 then rangeLoop searchStr.data list true else res.1
    if !wanted && res.2.2 then regexLoop rm searchStr list false else wanted
  else res.1

/- ---------------------------------------------------------------
   The date matcher `check_date`.
   --------------------------------------------------------------- -/

/-- The `sscanf("%*u.%u.%u")` month/day extraction applied after the
year's digits: each component defaults to 1 when the scan stops early. -/
def parseMonthDay (cs : List Char) : Nat × Nat :=
  match cs with
  | '.' :: r =>
    match scanUnsigned r with
    | none => (1, 1)
    | some (m, r2) =>
      match r2 with
      | '.' :: r3 =>
        match scanUnsigned r3 with
        | none => (m, 1)
        | some (d, _) => (m, d)
      | _ => (m, 1)
  | _ => (1, 1)

/-- Year/month/day extraction from a date string: fails when no leading
year scans; month and day default to 1. -/
def parseDateCs (cs : List Char) : Option (Nat × Nat × Nat) :=
  match scanUnsigned cs with
  | none => none
  | some (y, rest) =>
    let md := parseMonthDay rest
    some (y, md.1, md.2)

/-- Constant `MINDATE` of lists.c. -/
def MINDATE : Nat := 100

/-- Constant `MAXDATE` of lists.c. -/
def MAXDATE : Nat := 3000

/-- The per-criterion operator/pattern adjustment of `check_date`:
a pattern starting with 'b' forces less-than and strips the letter,
one starting with 'a' forces greater-than and strips it, anything else
keeps the stored operator and full pattern. -/
def effectiveSelection (sel : TagSelection) : TagOperator × List Char :=
  match sel.tag_string.data with
  | c :: r =>
    if c = 'b' then (TagOperator.LESS_THAN, r)
    else if c = 'a' then (TagOperator.GREATER_THAN, r)
    else (sel.operator, c :: r)
  | [] => (sel.operator, [])

/-- The body of one iteration of the `check_date` loop.  `gy` is the
game's year, `enc` its encoded date, `dsData` the raw game date string,
`isFirst` whether this is the first list entry. -/
def dateStep (gy enc : Nat) (dsData : List Char) (sel : TagSelection)
    (isFirst wanted : Bool) : Bool :=
  let eff := effectiveSelection sel
  if eff.1 ≠ TagOperator.NONE then
    match scanUnsigned eff.2 with
    | some (ly, lrest) =>
      if MINDATE < gy ∧ gy < MAXDATE then
        let md := parseMonthDay lrest
        let lenc := 10000 * ly + 100 * md.1 + md.2
        let cmpres := relative_numeric_match eff.1 (enc : Rat) (lenc : Rat)
        if isFirst then cmpres else wanted && cmpres
      else false
    | none => false
  else
    if isFirst || !wanted then isPrefixCL eff.2 dsData else wanted

/-- The criterion loop of `check_date`. -/
def dateLoop (gy enc : Nat) (dsData : List Char) :
    List TagSelection → Bool → Bool → Bool
  | [], _, wanted => wanted
  | sel :: rest, isFirst, wanted =>
    dateLoop gy enc dsData rest false (dateStep gy enc dsData sel isFirst wanted)

/-- Function `check_date` of lists.c: the game's date must scan to a year (month
and day default to 1); the encoded magnitude `year*10000+month*100+day`
is then run through the criterion loop, starting from `wanted = FALSE`. -/
def check_date (dateString : String) (list : List TagSelection) : Bool :=
  match parseDateCs dateString.data with
  | none => false
  | some (gy, gm, gd) =>
    dateLoop gy (10000 * gy + 100 * gm + gd) dateString.data list true false

/- ---------------------------------------------------------------
   The Elo and time-control matchers.
   --------------------------------------------------------------- -/

/-- The criterion loop of `check_elo`: runs while no match has been
found; a relational criterion compares the game's Elo against the
pattern's integer value (a bad pattern makes the criterion non-matching),
a plain criterion tests prefix equality against the raw Elo string. -/
def eloLoop (gameElo : Nat) (eloData : List Char) : List TagSelection → Bool → Bool
  | [], wanted => wanted
  | sel :: rest, wanted =>
    if wanted then wanted
    else
      let wanted :=
        if sel.operator ≠ TagOperator.NONE then
          match scanUnsigned sel.tag_string.data with
          | some (listElo, _) =>
            relative_numeric_match sel.operator (gameElo : Rat) (listElo : Rat)
          | none => false
        else
          if isPrefixCL sel.tag_string.data eloData then true else wanted
      eloLoop gameElo eloData rest wanted

/-- Function `check_elo` of lists.c: the candidate must scan as an unsigned
integer, else the result is false. -/
def check_elo (eloString : String) (list : List TagSelection) : Bool :=
  match scanUnsigned eloString.data with
  | none => false
  | some (gameElo, _) => eloLoop gameElo eloString.data list false

/-- The criterion loop of `check_time_period`: same OR / first-success
shape as `check_elo`, comparing the extracted period relationally and the
truncated time-control string by prefix (a bad relational pattern leaves
the running result unchanged). -/
def timePeriodLoop (tagData : List Char) (period : Nat) : List TagSelection → Bool → Bool
  | [], wanted => wanted
  | sel :: rest, wanted =>
    if wanted then wanted
    else
      let wanted :=
        if sel.operator ≠ TagOperator.NONE then
          match scanUnsigned sel.tag_string.data with
          | some (listPeriod, _) =>
            relative_numeric_match sel.operator (period : Rat) (listPeriod : Rat)
          | none => wanted
        else
          if isPrefixCL sel.tag_string.data tagData then true else wanted
      timePeriodLoop tagData period rest wanted

/-- Function `check_time_period` of lists.c. -/
def check_time_period (tagString : String) (period : Nat) (list : List TagSelection) : Bool :=
  timePeriodLoop tagString.data period list false

/-- Truncation of a time-control value at the first ':' (the code
overwrites the separator with a terminator). -/
def timeControlTruncate (s : String) : List Char :=
  s.data.takeWhile (fun c => c != ':')

/-- The shape analysis of `check_time_control` on the truncated control:
`period+increment` (any '+' present), `*period`, `moves/period`, or a
bare all-digit period; yields the extracted period or nothing. -/
def timeControlPeriod (control : List Char) : Option Nat :=
  if control.contains '+' then
    match scanUnsigned control with
    | some (p, _) => some p
    | none => none
  else
    match control with
    | '*' :: r =>
      match scanUnsigned r with
      | some (p, _) => some p
      | none => none
    | _ =>
      if control.contains '/' then
        match scanUnsigned ((control.dropWhile (fun c => c != '/')).tail) with
        | some (p, _) => some p
        | none => none
      else
        match control with
        | c :: _ =>
          if c.isDigit then
            if control.all Char.isDigit then
              match scanUnsigned control with
              | some (p, _) => some p
              | none => none
            else none
          else none
        | [] => none

/-- Function `check_time_control` of lists.c: an empty candidate or one starting
with '?' or '-' never matches; otherwise the truncated control is
analysed and, when a period is extracted, handed to `check_time_period`. -/
def check_time_control (tcString : String) (list : List TagSelection) : Bool :=
  match tcString.data with
  | [] => false
  | c :: _ =>
    if c = '?' ∨ c = '-' then false
    else
      let control := timeControlTruncate tcString
      match timeControlPeriod control with
      | some period => check_time_period (String.mk control) period list
      | none => false

/- ---------------------------------------------------------------
   Record-level aggregation.
   --------------------------------------------------------------- -/

/-- The either-player clause of `check_tag_details_not_ECO`: the white
value is tried first against the either-player list; on absence or
failure the black value is tried (only if present); both absent gives
false. -/
def pseudoPlayerClause (rm : String → String → Bool) (st : EngineState)
    (details : Nat → Option String) : Bool :=
  match details WHITE_TAG with
  | some w =>
    let wanted := check_list st.cfg rm WHITE_TAG w (st.tagLists PSEUDO_PLAYER_TAG)
    if !wanted then
      match details BLACK_TAG with
      | some b => check_list st.cfg rm BLACK_TAG b (st.tagLists PSEUDO_PLAYER_TAG)
      | none => wanted
    else wanted
  | none =>
    match details BLACK_TAG with
    | some b => check_list st.cfg rm BLACK_TAG b (st.tagLists PSEUDO_PLAYER_TAG)
    | none => false

/-- The either-rating clause of `check_tag_details_not_ECO`: same
fallback shape over the two rating fields, using `check_elo`. -/
def pseudoEloClause (st : EngineState) (details : Nat → Option String) : Bool :=
  match details WHITE_ELO_TAG with
  | some w =>
    let wanted := check_elo w (st.tagLists PSEUDO_ELO_TAG)
    if !wanted then
      match details BLACK_ELO_TAG with
      | some b => check_elo b (st.tagLists PSEUDO_ELO_TAG)
      | none => wanted
    else wanted
  | none =>
    match details BLACK_ELO_TAG with
    | some b => check_elo b (st.tagLists PSEUDO_ELO_TAG)
    | none => false

/-- The final tag loop of `check_tag_details_not_ECO`: runs over the tag
codes while the running verdict is still true, skipping the two synthetic
tags and the ECO tag, requiring a value for every other constrained tag
and dispatching to the date / Elo / time-control / generic matcher. -/
def tagLoop (rm : String → String → Bool) (st : EngineState)
    (details : Nat → Option String) : List Nat → Bool → Bool
  | [], wanted => wanted
  | tag :: rest, wanted =>
    if !wanted then wanted
    else
      let wanted :=
        if tag = PSEUDO_PLAYER_TAG ∨ tag = PSEUDO_ELO_TAG ∨ tag = ECO_TAG then wanted
        else if st.tagLists tag ≠ [] then
          match details tag with
          | some v =>
            if tag = DATE_TAG then check_date v (st.tagLists DATE_TAG)
            else if tag = WHITE_ELO_TAG ∨ tag = BLACK_ELO_TAG then
              check_elo v (st.tagLists tag)
            else if tag = TIME_CONTROL_TAG then
              check_time_control v (st.tagLists TIME_CONTROL_TAG)
            else check_list st.cfg rm tag v (st.tagLists tag)
          | none => false
        else wanted
      tagLoop rm st details rest wanted

/-- Function `check_tag_details_not_ECO` of lists.c.  `none` models the
`exit(1)` taken when the caller supplies fewer detail slots than the
registry's tag-code space; otherwise `some` of the verdict.  When the
check-tags flag is clear the function does no work and accepts. -/
def check_tag_details_not_ECO (rm : String → String → Bool) (st : EngineState)
    (details : Nat → Option String) (num_details : Nat) : Option Bool :=
  if st.cfg.check_tags then
    if num_details < st.tag_list_length then none
    else
      let wanted := true
      let wanted :=
        if st.tagLists PSEUDO_PLAYER_TAG ≠ [] then pseudoPlayerClause rm st details
        else wanted
      let wanted :=
        if st.tagLists PSEUDO_ELO_TAG ≠ [] then pseudoEloClause st details
        else wanted
      some (tagLoop rm st details (List.range st.tag_list_length) wanted)
  else some true

/-- Function `check_ECO_tag` of lists.c: the separate entry point for the ECO
tag. -/
def check_ECO_tag (rm : String → String → Bool) (st : EngineState)
    (details : Nat → Option String) : Bool :=
  if st.cfg.check_tags then
    if st.tagLists ECO_TAG ≠ [] then
      match details ECO_TAG with
      | some v => check_list st.cfg rm ECO_TAG v (st.tagLists ECO_TAG)
      | none => false
    else true
  else true

/-- An engine state with no criteria registered and the check-tags flag
clear: the state before any `add_tag_to_list` call. -/
def emptyEngine : EngineState :=
  { cfg := { use_soundex := false, tag_match_anywhere := false, check_tags := false }
    tagLists := fun _ => []
    tag_list_length := ORIGINAL_NUMBER_OF_TAGS }

/-- A regex oracle under which no pattern ever matches. -/
def rmNever : String → String → Bool := fun _ _ => false

/-- The default configuration: no soundex, prefix-mode matching, tag
checking enabled (as after at least one registration). -/
def prefixCfg : GlobalConfig :=
  { use_soundex := false, tag_match_anywhere := false, check_tags := true }

/-- The anywhere-mode configuration: no soundex, match anywhere in the
tag value, tag checking enabled. -/
def anywhereCfg : GlobalConfig :=
  { use_soundex := false, tag_match_anywhere := true, check_tags := true }

/-- A state with criteria on both synthetic tags: either-player
"Kasparov" and either-rating "2800". -/
def stPlayerElo : EngineState :=
  { cfg := prefixCfg
    tagLists := fun t =>
      if t = PSEUDO_PLAYER_TAG then [⟨"Kasparov", .NONE⟩]
      else if t = PSEUDO_ELO_TAG then [⟨"2800", .NONE⟩]
      else []
    tag_list_length := ORIGINAL_NUMBER_OF_TAGS }

/-- A record with no player fields whose white rating is "2800". -/
def detailsEloOnly : Nat → Option String := fun t =>
  if t = WHITE_ELO_TAG then some "2800" else none

/-- A state whose only criterion is either-player "Kasparov". -/
def stPlayerOnly : EngineState :=
  { cfg := prefixCfg
    tagLists := fun t => if t = PSEUDO_PLAYER_TAG then [⟨"Kasparov", .NONE⟩] else []
    tag_list_length := ORIGINAL_NUMBER_OF_TAGS }

/-- A record whose only field is the black player "Kasparov". -/
def detailsBlackOnly : Nat → Option String := fun t =>
  if t = BLACK_TAG then some "Kasparov" else none

/-- A state whose only criterion is the plain pattern "Smith" on the
white-player tag. -/
def stWhiteSmith : EngineState :=
  { cfg := prefixCfg
    tagLists := fun t => if t = WHITE_TAG then [⟨"Smith", .NONE⟩] else []
    tag_list_length := ORIGINAL_NUMBER_OF_TAGS }

/-- A record whose only field is the white player "Smith, John". -/
def detailsWhiteSmith : Nat → Option String := fun t =>
  if t = WHITE_TAG then some "Smith, John" else none

/-- The numeric-literal shape exactly as the specification words it:
an optional leading '+' or '-' sign followed by zero or more characters
each of which is a digit or '.', to end of string.  Stated independently
of `tag_string_is_numeric` so the two can be compared. -/
def numericShapeSpec (s : String) : Bool :=
  let t := match s.data with
    | c :: rest => if c = '+' ∨ c = '-' then rest else c :: rest
    | [] => []
  t.all (fun c => c.isDigit || c == '.')

/- ---------------------------------------------------------------
   Helper lemmas.
   --------------------------------------------------------------- -/

/-- Once the plain pass has found a match, the loop exits at once with
the flags as they stand. -/
theorem plainLoop_fixpoint (cfg : GlobalConfig) (isNum : Bool) (sd : List Char)
    (sels : List TagSelection) (pr px : Bool) :
    plainLoop cfg isNum sd sels true pr px = (true, pr, px) := by
  cases sels <;> rfl

/-- A false running verdict is final in the tag loop. -/
theorem tagLoop_false (rm : String → String → Bool) (st : EngineState)
    (details : Nat → Option String) (tags : List Nat) :
    tagLoop rm st details tags false = false := by
  cases tags <;> rfl

/-- A true running verdict is final in the Elo loop. -/
theorem eloLoop_fixpoint (gameElo : Nat) (eloData : List Char)
    (sels : List TagSelection) : eloLoop gameElo eloData sels true = true := by
  cases sels <;> rfl

/-- A true running verdict is final in the time-period loop. -/
theorem timePeriodLoop_fixpoint (tagData : List Char) (period : Nat)
    (sels : List TagSelection) : timePeriodLoop tagData period sels true = true := by
  cases sels <;> rfl

/-- The function `dropWhile` consumes the whole list exactly when every element
satisfies the predicate. -/
theorem dropWhile_isEmpty_eq_all (p : Char → Bool) (l : List Char) :
    (l.dropWhile p).isEmpty = l.all p := by
  induction l with
  | nil => rfl
  | cons c t ih =>
    cases h : p c <;> simp [List.dropWhile_cons, List.all_cons, h, ih]

/- ---------------------------------------------------------------
   Claim theorems.
   --------------------------------------------------------------- -/

/-- C1: evaluation of the code at the failing input.  For the
numeric-shaped candidate "123" and a criterion list holding only the
regex-operator criterion "xyz", `check_list` returns true for every
regex oracle — including the oracle under which no regex ever matches —
because the regex criterion switches on the relational AND pass, whose
seeded true value survives the pass (the regex operator falls into the
internal-error `default:` arm and contributes no comparison).  The claim
(and the code's own comment) say the verdict should instead be decided
by the regex pass alone, yielding false here. -/
theorem check_list_regex_only_numeric_seeds_true :
    ∀ rm : String → String → Bool,
      check_list prefixCfg rm WHITE_TAG "123" [⟨"xyz", .REGEX⟩] = true :=
  fun _ => rfl

/-- C2 counterexample: with candidate "abc", the single regex-operator
criterion "ab", prefix mode and a regex oracle that never matches,
`check_list` returns true — the match can only have come from the plain
text test applied to a regex-operator criterion, which the claim says
never happens (under the claim the plain pass has no eligible criterion,
the candidate is not numeric-shaped, and the regex pass fails, so the
claimed result is false). -/
theorem check_list_plain_pass_operator_counterexample :
    check_list prefixCfg rmNever WHITE_TAG "abc" [⟨"ab", .REGEX⟩] = true := rfl

/-- The plain loop reports a match whenever its running verdict is
already true or some criterion of the remaining list passes the plain
text test, whatever that criterion's operator or position. -/
theorem plainLoop_first_true (cfg : GlobalConfig) (isNum : Bool) (sd : List Char) :
    ∀ (sels : List TagSelection) (w pr px : Bool),
      (w = true ∨ ∃ sel ∈ sels, plainHit cfg sd sel.tag_string.data = true) →
      (plainLoop cfg isNum sd sels w pr px).1 = true := by
  intro sels
  induction sels with
  | nil =>
    intro w pr px h
    rcases h with h | ⟨sel, hmem, _⟩
    · rw [h]; rfl
    · cases hmem
  | cons sel rest ih =>
    intro w pr px h
    cases hw : w with
    | true => rw [plainLoop_fixpoint]
    | false =>
      rw [hw] at h
      unfold plainLoop
      rw [if_neg (by simp)]
      cases hhit : plainHit cfg sd sel.tag_string.data with
      | true =>
        exact ih _ _ _ (Or.inl rfl)
      | false =>
        rcases h with h | ⟨sel2, hmem, hhit2⟩
        · cases h
        · rcases List.mem_cons.mp hmem with he | ht
          · rw [he] at hhit2; rw [hhit2] at hhit; cases hhit
          · exact ih _ _ _ (Or.inr ⟨sel2, ht, hhit2⟩)

/-- C2 as amended: the plain pass of `check_list` tests every criterion
regardless of its operator — substring containment in anywhere mode,
prefix equality in prefix mode, both against the (possibly phonetic)
search string — so any criterion of the list, at any position, whose
pattern passes the plain text test makes the whole match succeed,
whatever its operator. -/
theorem check_list_plain_pass_ignores_operator :
    ∀ (cfg : GlobalConfig) (rm : String → String → Bool) (tag : Nat)
      (s : String) (sels : List TagSelection) (sel : TagSelection),
      sel ∈ sels →
      plainHit cfg (searchStringFor cfg tag s).data sel.tag_string.data = true →
      check_list cfg rm tag s sels = true := by
  intro cfg rm tag s sels sel hmem hhit
  have h1 : (plainLoop cfg (tag_string_is_numeric (searchStringFor cfg tag s))
      (searchStringFor cfg tag s).data sels false false false).1 = true :=
    plainLoop_first_true cfg _ _ sels false false false (Or.inr ⟨sel, hmem, hhit⟩)
  unfold check_list
  dsimp only
  rw [h1]
  rfl

/-- Witness for the amended C2 theorem: a relational criterion at the
head in prefix mode, and a regex criterion in second position in
anywhere mode, each match through the plain text test. -/
theorem check_list_plain_pass_ignores_operator_witness :
    ((⟨"ab", TagOperator.LESS_THAN⟩ : TagSelection) ∈
        ([⟨"ab", TagOperator.LESS_THAN⟩] : List TagSelection)
     ∧ plainHit prefixCfg (searchStringFor prefixCfg WHITE_TAG "abc").data "ab".data = true
     ∧ check_list prefixCfg rmNever WHITE_TAG "abc" [⟨"ab", .LESS_THAN⟩] = true)
    ∧ ((⟨"ab", TagOperator.REGEX⟩ : TagSelection) ∈
        ([⟨"zz", TagOperator.NONE⟩, ⟨"ab", TagOperator.REGEX⟩] : List TagSelection)
       ∧ plainHit anywhereCfg (searchStringFor anywhereCfg WHITE_TAG "xxabyy").data "ab".data
           = true
       ∧ check_list anywhereCfg rmNever WHITE_TAG "xxabyy"
           [⟨"zz", .NONE⟩, ⟨"ab", .REGEX⟩] = true) :=
  ⟨⟨by decide, by decide,
     check_list_plain_pass_ignores_operator prefixCfg rmNever WHITE_TAG "abc"
       [⟨"ab", .LESS_THAN⟩] ⟨"ab", .LESS_THAN⟩ (by decide) (by decide)⟩,
   ⟨by decide, by decide,
     check_list_plain_pass_ignores_operator anywhereCfg rmNever WHITE_TAG "xxabyy"
       [⟨"zz", .NONE⟩, ⟨"ab", .REGEX⟩] ⟨"ab", .REGEX⟩ (by decide) (by decide)⟩⟩

/-- C9: with no criteria registered and the check-tags flag clear, both
record-level entry points accept every record, including one with no
fields at all. -/
theorem empty_registry_accepts_all :
    ∀ (rm : String → String → Bool) (details : Nat → Option String) (n : Nat),
      check_tag_details_not_ECO rm emptyEngine details n = some true ∧
      check_ECO_tag rm emptyEngine details = true :=
  fun _ _ _ => ⟨rfl, rfl⟩

/-- C10: the numeric-literal classifier of `check_list` accepts exactly
the strings of shape optional sign then digits/dots to end of string;
in particular "1.2.3", the empty string and the bare signs are all
classified numeric-shaped, and an empty candidate therefore enters the
relational AND pass (whose seeded true survives, since the empty string
scans as no double at all). -/
theorem numeric_classifier_shape :
    (∀ s, tag_string_is_numeric s = numericShapeSpec s)
    ∧ tag_string_is_numeric "1.2.3" = true
    ∧ tag_string_is_numeric "" = true
    ∧ tag_string_is_numeric "+" = true
    ∧ tag_string_is_numeric "-" = true
    ∧ (∀ rm : String → String → Bool,
        check_list prefixCfg rm WHITE_TAG "" [⟨"5", .LESS_THAN⟩] = true) := by
  refine ⟨?_, rfl, rfl, rfl, rfl, fun _ => rfl⟩
  intro s
  unfold tag_string_is_numeric numericShapeSpec
  cases s.data with
  | nil => rfl
  | cons c rest =>
    by_cases h : c = '+' ∨ c = '-'
    · simp only [if_pos h]
      exact dropWhile_isEmpty_eq_all _ rest
    · simp only [if_neg h]
      exact dropWhile_isEmpty_eq_all _ (c :: rest)

/-- C3 counterexample: with either-player criterion "Kasparov" and
either-rating criterion "2800" registered, a record with no player
fields at all (so the either-player clause yields false, as the second
conjunct records) but a matching white rating is nevertheless accepted:
the either-rating clause overwrites the player clause's false verdict
instead of being ANDed with it, so `overall_match` is true where the
claim requires false. -/
theorem pseudo_player_clause_counterexample :
    check_tag_details_not_ECO rmNever stPlayerElo detailsEloOnly ORIGINAL_NUMBER_OF_TAGS
      = some true
    ∧ pseudoPlayerClause rmNever stPlayerElo detailsEloOnly = false :=
  ⟨rfl, rfl⟩

/-- C3 as amended: the either-player clause tries the white value first
and falls back to the black value; a white match accepts at once without
consulting the black value; when neither side's value is present and
matching, the record is rejected — provided the either-rating synthetic
tag has no criteria (when it does, its clause overwrites rather than
ANDs the player clause's verdict, see the counterexample); and a record
whose only matching field is the black player's value is accepted. -/
theorem pseudo_player_clause_fallback :
    (∀ (rm : String → String → Bool) (st : EngineState)
       (details : Nat → Option String) (w : String),
       details WHITE_TAG = some w →
       check_list st.cfg rm WHITE_TAG w (st.tagLists PSEUDO_PLAYER_TAG) = true →
       pseudoPlayerClause rm st details = true)
    ∧ (∀ (rm : String → String → Bool) (st : EngineState)
         (details : Nat → Option String) (n : Nat),
         st.cfg.check_tags = true →
         st.tagLists PSEUDO_PLAYER_TAG ≠ [] →
         st.tagLists PSEUDO_ELO_TAG = [] →
         st.tag_list_length ≤ n →
         (∀ w, details WHITE_TAG = some w →
           check_list st.cfg rm WHITE_TAG w (st.tagLists PSEUDO_PLAYER_TAG) = false) →
         (∀ b, details BLACK_TAG = some b →
           check_list st.cfg rm BLACK_TAG b (st.tagLists PSEUDO_PLAYER_TAG) = false) →
         check_tag_details_not_ECO rm st details n = some false)
    ∧ check_tag_details_not_ECO rmNever stPlayerOnly detailsBlackOnly
        ORIGINAL_NUMBER_OF_TAGS = some true := by
  refine ⟨?_, ?_, rfl⟩
  · intro rm st details w hW hmatch
    unfold pseudoPlayerClause
    rw [hW]
    simp [hmatch]
  · intro rm st details n hct hpp hpe hlen hw hb
    have hclause : pseudoPlayerClause rm st details = false := by
      unfold pseudoPlayerClause
      cases hW : details WHITE_TAG with
      | some w =>
        cases hB : details BLACK_TAG with
        | some b => simp [hw w hW, hb b hB]
        | none => simp [hw w hW]
      | none =>
        cases hB : details BLACK_TAG with
        | some b => simp [hb b hB]
        | none => simp
    unfold check_tag_details_not_ECO
    rw [if_pos hct, if_neg (Nat.not_lt.mpr hlen)]
    simp only [if_pos hpp, hclause, if_neg (not_not_intro hpe)]
    rw [tagLoop_false]

/-- Witness for the amended C3 theorem. -/
theorem pseudo_player_clause_fallback_witness :
    ((fun t => if t = WHITE_TAG then some "Kasparov" else none : Nat → Option String)
       WHITE_TAG = some "Kasparov"
     ∧ check_list stPlayerOnly.cfg rmNever WHITE_TAG "Kasparov"
         (stPlayerOnly.tagLists PSEUDO_PLAYER_TAG) = true
     ∧ pseudoPlayerClause rmNever stPlayerOnly
         (fun t => if t = WHITE_TAG then some "Kasparov" else none) = true)
    ∧ (stPlayerOnly.cfg.check_tags = true
       ∧ stPlayerOnly.tagLists PSEUDO_PLAYER_TAG ≠ []
       ∧ stPlayerOnly.tagLists PSEUDO_ELO_TAG = []
       ∧ stPlayerOnly.tag_list_length ≤ ORIGINAL_NUMBER_OF_TAGS
       ∧ check_tag_details_not_ECO rmNever stPlayerOnly (fun _ => none)
           ORIGINAL_NUMBER_OF_TAGS = some false) :=
  ⟨⟨rfl, by decide,
     pseudo_player_clause_fallback.1 rmNever stPlayerOnly
       (fun t => if t = WHITE_TAG then some "Kasparov" else none) "Kasparov" rfl (by decide)⟩,
   ⟨rfl, by decide, rfl, by decide,
     pseudo_player_clause_fallback.2.1 rmNever stPlayerOnly (fun _ => none)
       ORIGINAL_NUMBER_OF_TAGS rfl (by decide) rfl (by decide)
       (fun _ h => by simp at h) (fun _ h => by simp at h)⟩⟩

/-- C4 counterexample: with a criterion registered and tag checking on,
supplying one more detail slot than the registry's tag-code space is not
fatal — evaluation proceeds and accepts this record — although the claim
says any mismatch (smaller or larger) terminates the process. -/
theorem tag_count_larger_counterexample :
    check_tag_details_not_ECO rmNever stWhiteSmith detailsWhiteSmith
      (ORIGINAL_NUMBER_OF_TAGS + 1) = some true := rfl

/-- C4 as amended: only a supplied tag count smaller than the registry's
tag-code space is a fatal internal-consistency error; any count at least
the registry size is accepted and evaluation yields a verdict. -/
theorem tag_count_fatal_only_when_smaller :
    (∀ (rm : String → String → Bool) (st : EngineState)
       (details : Nat → Option String) (n : Nat),
       st.cfg.check_tags = true → n < st.tag_list_length →
       check_tag_details_not_ECO rm st details n = none)
    ∧ (∀ (rm : String → String → Bool) (st : EngineState)
         (details : Nat → Option String) (n : Nat),
         st.tag_list_length ≤ n →
         ∃ b, check_tag_details_not_ECO rm st details n = some b) := by
  constructor
  · intro rm st details n hct hlt
    unfold check_tag_details_not_ECO
    rw [if_pos hct, if_pos hlt]
  · intro rm st details n hlen
    unfold check_tag_details_not_ECO
    by_cases hct : st.cfg.check_tags = true
    · rw [if_pos hct, if_neg (Nat.not_lt.mpr hlen)]
      exact ⟨_, rfl⟩
    · rw [if_neg hct]
      exact ⟨true, rfl⟩

/-- Witness for the amended C4 theorem. -/
theorem tag_count_fatal_only_when_smaller_witness :
    (stWhiteSmith.cfg.check_tags = true
     ∧ 15 < stWhiteSmith.tag_list_length
     ∧ check_tag_details_not_ECO rmNever stWhiteSmith detailsWhiteSmith 15 = none)
    ∧ (stWhiteSmith.tag_list_length ≤ 17
       ∧ ∃ b, check_tag_details_not_ECO rmNever stWhiteSmith detailsWhiteSmith 17 = some b) :=
  ⟨⟨rfl, by decide,
     tag_count_fatal_only_when_smaller.1 rmNever stWhiteSmith detailsWhiteSmith 15
       rfl (by decide)⟩,
   ⟨by decide,
     tag_count_fatal_only_when_smaller.2 rmNever stWhiteSmith detailsWhiteSmith 17
       (by decide)⟩⟩

/-- The date-loop step depends on a criterion only through its effective
operator/pattern pair. -/
theorem dateStep_congr (gy enc : Nat) (dsData : List Char) (s1 s2 : TagSelection)
    (h : effectiveSelection s1 = effectiveSelection s2) (isFirst wanted : Bool) :
    dateStep gy enc dsData s1 isFirst wanted = dateStep gy enc dsData s2 isFirst wanted := by
  unfold dateStep
  rw [h]

/-- Criteria with equal effective pairs are interchangeable at any
position of the date loop. -/
theorem dateLoop_congr (gy enc : Nat) (dsData : List Char) (s1 s2 : TagSelection)
    (post : List TagSelection) (h : effectiveSelection s1 = effectiveSelection s2) :
    ∀ (pre : List TagSelection) (isFirst wanted : Bool),
      dateLoop gy enc dsData (pre ++ s1 :: post) isFirst wanted
        = dateLoop gy enc dsData (pre ++ s2 :: post) isFirst wanted := by
  intro pre
  induction pre with
  | nil =>
    intro isFirst wanted
    simp only [List.nil_append, dateLoop]
    rw [dateStep_congr gy enc dsData s1 s2 h]
  | cons p pre ih =>
    intro isFirst wanted
    simp only [List.cons_append, dateLoop]
    exact ih false (dateStep gy enc dsData p isFirst wanted)

/-- A pattern starting with 'b' yields less-than on the stripped tail. -/
theorem effectiveSelection_b (cs : List Char) (op : TagOperator) :
    effectiveSelection ⟨String.mk ('b' :: cs), op⟩ = (TagOperator.LESS_THAN, cs) := rfl

/-- A pattern starting with 'a' yields greater-than on the stripped tail. -/
theorem effectiveSelection_a (cs : List Char) (op : TagOperator) :
    effectiveSelection ⟨String.mk ('a' :: cs), op⟩ = (TagOperator.GREATER_THAN, cs) := rfl

/-- A pattern not starting with 'a' or 'b' keeps the stored operator. -/
theorem effectiveSelection_default (cs : List Char) (op : TagOperator)
    (h1 : cs.head? ≠ some 'b') (h2 : cs.head? ≠ some 'a') :
    effectiveSelection ⟨String.mk cs, op⟩ = (op, cs) := by
  cases cs with
  | nil => rfl
  | cons c r =>
    have hb : ¬ c = 'b' := by intro e; exact h1 (by rw [e]; rfl)
    have ha : ¬ c = 'a' := by intro e; exact h2 (by rw [e]; rfl)
    unfold effectiveSelection
    simp [hb, ha]

/-- C5: in `check_date`, a criterion pattern beginning with 'b' is
evaluated as less-than with the letter stripped, and one beginning with
'a' as greater-than with the letter stripped (stated for stripped
patterns that do not themselves begin with a letter prefix, at any
position of the list); otherwise the stored operator is used.  Relational
criteria after the first are ANDed into the running result seeded by the
first criterion: the list "1990" GREATER_THAN then "2000" LESS_THAN
accepts "1995.06.01" and rejects both "2005.01.01" and "1985.01.01". -/
theorem check_date_letter_forcing_and_relational_and :
    (∀ (op : TagOperator) (cs : List Char) (pre post : List TagSelection) (ds : String),
       cs.head? ≠ some 'b' → cs.head? ≠ some 'a' →
       check_date ds (pre ++ ⟨String.mk ('b' :: cs), op⟩ :: post)
         = check_date ds (pre ++ ⟨String.mk cs, .LESS_THAN⟩ :: post))
    ∧ (∀ (op : TagOperator) (cs : List Char) (pre post : List TagSelection) (ds : String),
       cs.head? ≠ some 'b' → cs.head? ≠ some 'a' →
       check_date ds (pre ++ ⟨String.mk ('a' :: cs), op⟩ :: post)
         = check_date ds (pre ++ ⟨String.mk cs, .GREATER_THAN⟩ :: post))
    ∧ check_date "1995.06.01" [⟨"1990", .GREATER_THAN⟩, ⟨"2000", .LESS_THAN⟩] = true
    ∧ check_date "2005.01.01" [⟨"1990", .GREATER_THAN⟩, ⟨"2000", .LESS_THAN⟩] = false
    ∧ check_date "1985.01.01" [⟨"1990", .GREATER_THAN⟩, ⟨"2000", .LESS_THAN⟩] = false := by
  refine ⟨?_, ?_, rfl, rfl, rfl⟩
  · intro op cs pre post ds h1 h2
    have heff : effectiveSelection ⟨String.mk ('b' :: cs), op⟩
        = effectiveSelection ⟨String.mk cs, .LESS_THAN⟩ := by
      rw [effectiveSelection_b, effectiveSelection_default cs _ h1 h2]
    unfold check_date
    cases h : parseDateCs ds.data with
    | none => rfl
    | some t => exact dateLoop_congr _ _ _ _ _ post heff pre true false
  · intro op cs pre post ds h1 h2
    have heff : effectiveSelection ⟨String.mk ('a' :: cs), op⟩
        = effectiveSelection ⟨String.mk cs, .GREATER_THAN⟩ := by
      rw [effectiveSelection_a, effectiveSelection_default cs _ h1 h2]
    unfold check_date
    cases h : parseDateCs ds.data with
    | none => rfl
    | some t => exact dateLoop_congr _ _ _ _ _ post heff pre true false

/-- Witness for the C5 theorem. -/
theorem check_date_letter_forcing_witness :
    ("1990".data.head? ≠ some 'b' ∧ "1990".data.head? ≠ some 'a'
      ∧ check_date "1995" [⟨String.mk ('b' :: "1990".data), .NONE⟩]
        = check_date "1995" [⟨String.mk "1990".data, .LESS_THAN⟩])
    ∧ ("1990".data.head? ≠ some 'b' ∧ "1990".data.head? ≠ some 'a'
      ∧ check_date "1995" [⟨String.mk ('a' :: "1990".data), .NONE⟩]
        = check_date "1995" [⟨String.mk "1990".data, .GREATER_THAN⟩]) :=
  ⟨⟨by decide, by decide,
     check_date_letter_forcing_and_relational_and.1 .NONE "1990".data [] [] "1995"
       (by decide) (by decide)⟩,
   ⟨by decide, by decide,
     check_date_letter_forcing_and_relational_and.2.1 .NONE "1990".data [] [] "1995"
       (by decide) (by decide)⟩⟩

/-- C6: `check_elo` and `check_time_period` scan criteria in insertion
order and the first success wins (OR, not AND): the list ">2700", ">2800"
accepts Elo "2750" through its first criterion alone — the tail of the
list is never required (stated for an arbitrary tail) — although the
second criterion alone would reject it; a no-operator criterion succeeds
by prefix equality; the time-period matcher behaves the same way on the
extracted period. -/
theorem elo_and_time_period_first_success_wins :
    check_elo "2750" [⟨"2700", .GREATER_THAN⟩, ⟨"2800", .GREATER_THAN⟩] = true
    ∧ check_elo "2750" [⟨"2800", .GREATER_THAN⟩] = false
    ∧ (∀ rest : List TagSelection,
        check_elo "2750" (⟨"2700", .GREATER_THAN⟩ :: rest) = true)
    ∧ check_elo "2750" [⟨"27", .NONE⟩] = true
    ∧ check_time_period "40/7200" 7200 [⟨"5000", .GREATER_THAN⟩, ⟨"10000", .GREATER_THAN⟩] = true
    ∧ check_time_period "40/7200" 7200 [⟨"10000", .GREATER_THAN⟩] = false
    ∧ (∀ rest : List TagSelection,
        check_time_period "40/7200" 7200 (⟨"5000", .GREATER_THAN⟩ :: rest) = true)
    ∧ check_time_period "40/7200" 7200 [⟨"40/", .NONE⟩] = true := by
  refine ⟨rfl, rfl, ?_, rfl, rfl, rfl, ?_, rfl⟩
  · intro rest
    have h : check_elo "2750" (⟨"2700", .GREATER_THAN⟩ :: rest)
        = eloLoop 2750 "2750".data rest true := rfl
    rw [h, eloLoop_fixpoint]
  · intro rest
    have h : check_time_period "40/7200" 7200 (⟨"5000", .GREATER_THAN⟩ :: rest)
        = timePeriodLoop "40/7200".data 7200 rest true := rfl
    rw [h, timePeriodLoop_fixpoint]

/-- C7: the time-control matcher considers only the portion of the
candidate before the first ':'; the period is extracted from the four
shapes period+increment, *period, moves/period and bare digits;
relational criteria compare the extracted period and plain criteria
prefix-compare the truncated string; empty, "?" and "-" candidates never
match any criterion list.  "40/7200:20/3600" truncates to "40/7200"
with period 7200 and "300+5" yields period 300. -/
theorem time_control_truncation_and_period :
    timeControlTruncate "40/7200:20/3600" = "40/7200".data
    ∧ timeControlPeriod ("40/7200".data) = some 7200
    ∧ timeControlPeriod ("300+5".data) = some 300
    ∧ timeControlPeriod ("*180".data) = some 180
    ∧ timeControlPeriod ("600".data) = some 600
    ∧ timeControlPeriod ("abc".data) = none
    ∧ (∀ list : List TagSelection, check_time_control "" list = false)
    ∧ (∀ list : List TagSelection, check_time_control "?" list = false)
    ∧ (∀ list : List TagSelection, check_time_control "-" list = false)
    ∧ check_time_control "40/7200:20/3600" [⟨"5000", .GREATER_THAN⟩] = true
    ∧ check_time_control "40/7200:20/3600" [⟨"40/", .NONE⟩] = true
    ∧ check_time_control "300+5" [⟨"300", .GREATER_THAN⟩] = false
    ∧ check_time_control "300+5" [⟨"200", .GREATER_THAN⟩] = true :=
  ⟨rfl, rfl, rfl, rfl, rfl, rfl, fun _ => rfl, fun _ => rfl, fun _ => rfl,
   rfl, rfl, rfl, rfl⟩

/-- The soundex scan emits at most `MAXSOUNDEX - sindex` further
symbols. -/
theorem soundexAux_length_le :
    ∀ (cs : List Char) (lastc : Char) (n : Nat),
      (soundexAux cs lastc n).length ≤ MAXSOUNDEX - n := by
  intro cs
  induction cs with
  | nil => intro lastc n; simp [soundexAux]
  | cons c rest ih =>
    intro lastc n
    unfold soundexAux
    by_cases h1 : MAXSOUNDEX ≤ n
    · simp [h1]
    · rw [if_neg h1]
      by_cases h2 : (c.isAlpha && c != lastc) = true
      · rw [if_pos h2]
        by_cases h3 : (soundexTranslation c != '0' && soundexTranslation c != lastc) = true
        · rw [if_pos h3]
          have hrec := ih (soundexTranslation c) (n + 1)
          simp only [List.length_cons]
          unfold MAXSOUNDEX at h1 hrec ⊢
          omega
        · rw [if_neg h3]; exact ih lastc n
      · rw [if_neg h2]; exact ih lastc n

/-- C8: the phonetic encoder is a pure function of its input whose output
never exceeds 50 symbols; an initial 'J' or 'Y' in either case emits the
leading digit '7'; "Nimzovich" and "Nimzowitsch" encode identically, as
do "Janosevic" and "Yanosevic" (leading digit '7'), and encoding is
case-insensitive on a whole name. -/
theorem soundex_bounded_and_phonetic :
    (∀ s, (soundex s).length ≤ MAXSOUNDEX)
    ∧ (∀ cs : List Char,
        (soundex (String.mk ('J' :: cs))).data.head? = some '7'
        ∧ (soundex (String.mk ('j' :: cs))).data.head? = some '7'
        ∧ (soundex (String.mk ('Y' :: cs))).data.head? = some '7'
        ∧ (soundex (String.mk ('y' :: cs))).data.head? = some '7')
    ∧ soundex "Nimzovich" = soundex "Nimzowitsch"
    ∧ soundex "Janosevic" = soundex "Yanosevic"
    ∧ (soundex "Janosevic").data.head? = some '7'
    ∧ (soundex "Yanosevic").data.head? = some '7'
    ∧ soundex "NIMZOVICH" = soundex "nimzovich" := by
  refine ⟨?_, fun cs => ⟨rfl, rfl, rfl, rfl⟩, rfl, rfl, rfl, rfl, rfl⟩
  intro s
  unfold soundex
  cases s.data with
  | nil => simp [soundexAux, String.length]
  | cons c rest =>
    dsimp only
    by_cases h : ((if c.isLower then c.toUpper else c) = 'Y'
        ∨ (if c.isLower then c.toUpper else c) = 'J')
    · rw [if_pos h]
      have hrec := soundexAux_length_le rest ' ' 1
      simp only [String.length, List.length_cons]
      unfold MAXSOUNDEX at hrec ⊢
      omega
    · rw [if_neg h]
      have hrec := soundexAux_length_le (c :: rest) ' ' 0
      simp only [String.length]
      unfold MAXSOUNDEX at hrec ⊢
      omega
